import Mathlib

/-!
Verification of the end-to-end test-data lifecycle core of this repository:
the `TestDataManager` (playwright/utils/test-data.ts), the `SalesforceAPI`
REST client (playwright/utils/salesforce-api.ts), and the authentication
session bridge (playwright/tests/auth.setup.ts), shallowly embedded as pure
Lean functions.  Stateful TypeScript methods become explicit state-passing
functions; `async`/`await` failure (thrown errors) becomes `Except`;
the remote REST API is abstracted as a function parameter supplying the
response of each call.
-/

namespace SfAiCli

/-- A record value in an open JS-style payload: we model the two value shapes
the test-data helpers actually put into payloads (strings and numbers). -/
inductive FieldValue where
  | str (s : String)
  | num (n : Int)
deriving DecidableEq, Repr

/-- An open key-value record payload (JS object literal), field order kept. -/
def Payload := List (String × FieldValue)

instance : DecidableEq Payload := inferInstanceAs (DecidableEq (List (String × FieldValue)))

/-- JS property lookup on an object: the first binding of the key, if any. -/
def getField (p : Payload) (k : String) : Option FieldValue :=
  (p.find? (fun kv => kv.1 == k)).map (fun kv => kv.2)

/-- JS object-literal spread `{ ...base, ...extra }` as the helpers use it:
every key of `base` keeps its position but takes `extra`'s value when `extra`
also binds it, and keys only in `extra` follow. -/
def spreadMerge (base extra : Payload) : Payload :=
  base.map (fun kv =>
    match getField extra kv.1 with
    | some v => (kv.1, v)
    | none => kv)
  ++ extra.filter (fun kv => (getField base kv.1).isNone)

/-- JS falsiness of a field value: the empty string and the number 0. -/
def isFalsy : FieldValue → Bool
  | .str s => s == ""
  | .num n => n == 0

/-- JS `a || b` on an optional field value (`undefined` and falsy pick `b`). -/
def jsOrV (v : Option FieldValue) (d : FieldValue) : FieldValue :=
  match v with
  | none => d
  | some x => if isFalsy x then d else x

/-- JS `a || b` where `a` is an optional string parameter. -/
def jsOr (v : Option String) (d : String) : String :=
  match v with
  | none => d
  | some s => if s == "" then d else s

/-- JS string coercion of a field value (template-literal interpolation). -/
def fvToStr : FieldValue → String
  | .str s => s
  | .num n => toString n

/-- One entry of `TestDataManager.createdRecords`:
`{ type: string; id: string; name?: string }`. -/
structure TrackedRecord where
  type : String
  id : String
  name : Option String
deriving DecidableEq, Repr

/-- `createRecord`'s success value `{ id, success, errors }`. -/
structure CreateResult where
  id : String
  success : Bool
  errors : List String
deriving DecidableEq, Repr

/-- The remote create API, abstracted: object type and payload in, either the
created-record result or a thrown error message out. -/
def ApiFun := String → Payload → Except String CreateResult

/-- `TestDataManager.createTestAccount`'s unique display name:
`name || `TestAccount_${Date.now()}``, with `Date.now()` passed in as `now`. -/
def accountUniqueName (name : Option String) (now : Nat) : String :=
  jsOr name ("TestAccount_" ++ Nat.repr now)

/-- `createTestAccount`'s payload
`{ Name: uniqueName, Type: 'Prospect', Industry: 'Technology', ...additionalData }`. -/
def accountData (name : Option String) (now : Nat) (additionalData : Payload) : Payload :=
  spreadMerge
    [("Name", .str (accountUniqueName name now)),
     ("Type", .str "Prospect"),
     ("Industry", .str "Technology")]
    additionalData

/-- `TestDataManager.createTestAccount`: state-passing embedding.  On API
success the tracked collection gets one appended entry and the id/name pair is
returned; a thrown API error propagates and leaves the state alone. -/
def createTestAccountE (createdRecords : List TrackedRecord) (name : Option String)
    (additionalData : Payload) (now : Nat) (api : ApiFun) :
    List TrackedRecord × Except String (String × String) :=
  match api "Account" (accountData name now additionalData) with
  | .error e => (createdRecords, .error e)
  | .ok result =>
      (createdRecords ++ [⟨"Account", result.id, some (accountUniqueName name now)⟩],
       .ok (result.id, accountUniqueName name now))

/-- `createTestContact`'s payload: defaults for `AccountId`, `FirstName`,
`LastName`, `Email` (the last two timestamp-suffixed), then `...data`. -/
def contactData (accountId : String) (data : Payload) (now : Nat) : Payload :=
  spreadMerge
    [("AccountId", .str accountId),
     ("FirstName", jsOrV (getField data "FirstName") (.str "TestFirst")),
     ("LastName", jsOrV (getField data "LastName") (.str ("TestLast_" ++ Nat.repr now))),
     ("Email", jsOrV (getField data "Email")
        (.str ("test." ++ Nat.repr now ++ "@example.com")))]
    data

/-- `contactData.FirstName + ' ' + contactData.LastName` of the merged payload. -/
def contactFullName (accountId : String) (data : Payload) (now : Nat) : String :=
  fvToStr ((getField (contactData accountId data now) "FirstName").getD (.str "undefined"))
    ++ " "
    ++ fvToStr ((getField (contactData accountId data now) "LastName").getD (.str "undefined"))

/-- `TestDataManager.createTestContact`, state-passing embedding. -/
def createTestContactE (createdRecords : List TrackedRecord) (accountId : String)
    (data : Payload) (now : Nat) (api : ApiFun) :
    List TrackedRecord × Except String (String × String) :=
  match api "Contact" (contactData accountId data now) with
  | .error e => (createdRecords, .error e)
  | .ok result =>
      (createdRecords ++ [⟨"Contact", result.id, some (contactFullName accountId data now)⟩],
       .ok (result.id, contactFullName accountId data now))

/-- `createTestOpportunity`'s payload; the computed default close date
(today + 30 days, date-only ISO form) is abstracted as `closeDateString`
since it is derived from the wall clock, not from program data. -/
def opportunityData (accountId : String) (data : Payload) (now : Nat)
    (closeDateString : String) : Payload :=
  spreadMerge
    [("AccountId", .str accountId),
     ("Name", jsOrV (getField data "Name") (.str ("TestOpportunity_" ++ Nat.repr now))),
     ("StageName", .str "Prospecting"),
     ("CloseDate", jsOrV (getField data "CloseDate") (.str closeDateString)),
     ("Amount", jsOrV (getField data "Amount") (.num 10000))]
    data

/-- `opportunityData.Name` of the merged payload, as the string the helper
returns and tracks. -/
def opportunityName (accountId : String) (data : Payload) (now : Nat)
    (closeDateString : String) : String :=
  fvToStr ((getField (opportunityData accountId data now closeDateString) "Name").getD
    (.str "undefined"))

/-- `TestDataManager.createTestOpportunity`, state-passing embedding. -/
def createTestOpportunityE (createdRecords : List TrackedRecord) (accountId : String)
    (data : Payload) (now : Nat) (closeDateString : String) (api : ApiFun) :
    List TrackedRecord × Except String (String × String) :=
  match api "Opportunity" (opportunityData accountId data now closeDateString) with
  | .error e => (createdRecords, .error e)
  | .ok result =>
      (createdRecords ++
        [⟨"Opportunity", result.id, some (opportunityName accountId data now closeDateString)⟩],
       .ok (result.id, opportunityName accountId data now closeDateString))

/-- `TestDataManager.createTestRecord` (generic helper), state-passing
embedding; the tracked display name is `data.Name || 'Unknown'`. -/
def createTestRecordE (createdRecords : List TrackedRecord) (objectType : String)
    (data : Payload) (api : ApiFun) :
    List TrackedRecord × Except String String :=
  match api objectType data with
  | .error e => (createdRecords, .error e)
  | .ok result =>
      (createdRecords ++
        [⟨objectType, result.id, some (fvToStr (jsOrV (getField data "Name") (.str "Unknown")))⟩],
       .ok result.id)

/-- `TestDataManager.getCreatedRecords` (the contents of the returned copy
`[...this.createdRecords]`). -/
def getCreatedRecords (createdRecords : List TrackedRecord) : List TrackedRecord :=
  createdRecords

/-- `TestDataManager.getRecordIdsByType`. -/
def getRecordIdsByType (createdRecords : List TrackedRecord) (objectType : String) :
    List String :=
  (createdRecords.filter (fun r => r.type == objectType)).map (fun r => r.id)

/-- `TestDataManager.excludeFromCleanup`: drop exactly the entries whose id
matches, remotely deleting nothing. -/
def excludeFromCleanup (createdRecords : List TrackedRecord) (recordId : String) :
    List TrackedRecord :=
  createdRecords.filter (fun r => !(r.id == recordId))

/-- `TestDataManager.resetTracking`. -/
def resetTracking (createdRecords : List TrackedRecord) : List TrackedRecord :=
  []

/-- How many tracked entries carry a given record id. -/
def countId (createdRecords : List TrackedRecord) (id : String) : Nat :=
  (createdRecords.filter (fun r => r.id == id)).length

/-! ## `TestDataManager.cleanup` -/

/-- The fixed deletion-priority list of `cleanup()`:
`const deletionOrder = ['Opportunity', 'Contact', 'Account']`. -/
def deletionOrder : List String := ["Opportunity", "Contact", "Account"]

/-- An observable step of `cleanup()`: one `api.deleteRecord` attempt (with
whether it succeeded) or the final clearing of the tracked collection. -/
inductive CleanupEvent where
  | del (r : TrackedRecord) (ok : Bool)
  | clearTracking
deriving DecidableEq, Repr

/-- The body of `cleanup()`'s per-record `try { await deleteRecord } catch`:
the attempt always happens, and a failure is caught (logged) rather than
rethrown, so the surrounding loop continues. -/
def attemptDelete (delRes : String → String → Except String Unit) (r : TrackedRecord) :
    CleanupEvent :=
  match delRes r.type r.id with
  | .ok _ => .del r true
  | .error _ => .del r false

/-- The event trace of `TestDataManager.cleanup`: early return on an empty
collection; otherwise, for each type of `deletionOrder` in order, one deletion
attempt per tracked record of that type, then one attempt per tracked record
of a type outside `deletionOrder`, then the unconditional clear.  `delRes`
abstracts the outcome of each remote `deleteRecord` call. -/
def cleanupEvents (delRes : String → String → Except String Unit)
    (createdRecords : List TrackedRecord) : List CleanupEvent :=
  if createdRecords.length = 0 then []
  else
    (deletionOrder.flatMap fun objectType =>
      (createdRecords.filter (fun r => r.type == objectType)).map (attemptDelete delRes))
    ++ (createdRecords.filter
          (fun r => !(deletionOrder.contains r.type))).map (attemptDelete delRes)
    ++ [.clearTracking]

/-- The tracked collection after `cleanup()` returns. -/
def cleanupState (delRes : String → String → Except String Unit)
    (createdRecords : List TrackedRecord) : List TrackedRecord :=
  if createdRecords.length = 0 then createdRecords else []

/-- The target of a deletion-attempt event, if the event is one. -/
def delTarget : CleanupEvent → Option TrackedRecord
  | .del r _ => some r
  | .clearTracking => none

/-- The records for which `cleanup()` issued a deletion attempt, in issue
order (the deletion-call trace projected to its targets). -/
def cleanupAttempts (delRes : String → String → Except String Unit)
    (createdRecords : List TrackedRecord) : List TrackedRecord :=
  (cleanupEvents delRes createdRecords).filterMap delTarget

/-- The tracked records in the order `cleanup()` walks them: the
`deletionOrder` types first, in list order, then everything else. -/
def orderedRecords (s : List TrackedRecord) : List TrackedRecord :=
  if s.length = 0 then []
  else
    (deletionOrder.flatMap fun objectType => s.filter (fun r => r.type == objectType))
    ++ s.filter (fun r => !(deletionOrder.contains r.type))

/-- Deletion rank induced by `deletionOrder`; types outside the list rank
after all listed types. -/
def priorityOf (r : TrackedRecord) : Nat :=
  if r.type = "Opportunity" then 0
  else if r.type = "Contact" then 1
  else if r.type = "Account" then 2
  else 3

/-! ## `SalesforceAPI.deleteRecord` -/

/-- The remote response to the DELETE call: HTTP status and body text. -/
structure HttpResponse where
  status : Nat
  body : String
deriving DecidableEq, Repr

/-- `response.ok` of the fetch API: status in the 200..299 range. -/
def respOk (resp : HttpResponse) : Bool :=
  decide (200 ≤ resp.status ∧ resp.status < 300)

/-- Leading-match test on character lists, for the substring check below. -/
def listHasPre : List Char → List Char → Bool
  | _, [] => true
  | [], _ :: _ => false
  | c :: cs, d :: ds => c == d && listHasPre cs ds

/-- Substring occurrence on character lists. -/
def listHasSub : List Char → List Char → Bool
  | [], needle => needle.isEmpty
  | c :: cs, needle => listHasPre (c :: cs) needle || listHasSub cs needle

/-- JS `String.prototype.includes`. -/
def strIncludes (s sub : String) : Bool :=
  listHasSub s.toList sub.toList

/-- The `try` body of `SalesforceAPI.deleteRecord`: a response that is neither
success nor 404 throws `Record deletion failed (status): body`. -/
def deleteRecordInner (resp : HttpResponse) : Except String Unit :=
  if !respOk resp && !(resp.status == 404) then
    .error ("Record deletion failed (" ++ Nat.repr resp.status ++ "): " ++ resp.body)
  else
    .ok ()

/-- `SalesforceAPI.deleteRecord(objectType, recordId)`, given the remote
response: the inner throw is caught by the method's own `catch`, which
swallows any error whose message contains the substring `404` (treating the
record as already deleted) and rewraps every other error. -/
def deleteRecordModel (objectType recordId : String) (resp : HttpResponse) :
    Except String Unit :=
  match deleteRecordInner resp with
  | .ok _ => .ok ()
  | .error msg =>
    if strIncludes msg "404" then
      .ok ()
    else
      .error ("Failed to delete " ++ objectType ++ " record: Error: " ++ msg)

/-! ## Session bridge (`auth.setup.ts`) -/

/-- The relevant part of `sf org display --json`'s `result`: the fields the
setup reads, each possibly absent. -/
structure OrgInfo where
  accessToken : Option String
  instanceUrl : Option String
deriving DecidableEq, Repr

/-- JS truthiness of an optional string property (`undefined`/`null` and the
empty string are falsy). -/
def truthy : Option String → Bool
  | none => false
  | some s => !(s == "")

/-- Browser-side effects the setup can perform. -/
inductive AuthAction where
  | goto (url : String)
  | waitForURL (pattern : String)
  | saveState (path : String)
deriving DecidableEq, Repr

/-- The front-door URL built by the setup. -/
def frontdoorUrl (orgInfo : OrgInfo) : String :=
  orgInfo.instanceUrl.getD "" ++ "/secur/frontdoor.jsp?sid="
    ++ orgInfo.accessToken.getD "" ++ "&retURL=/lightning/page/home"

/-- `setup('authenticate')` of auth.setup.ts: throws before any browser
action when the CLI descriptor lacks a usable access token or instance URL;
otherwise navigates to the front-door URL, waits for the authenticated URL
pattern, and persists the storage state. -/
def authSetup (orgInfo : OrgInfo) : Except String (List AuthAction) :=
  if !truthy orgInfo.accessToken || !truthy orgInfo.instanceUrl then
    .error "Failed to retrieve Access Token. Run \"sf org login web\" first."
  else
    .ok [.goto (frontdoorUrl orgInfo), .waitForURL "lightning",
         .saveState "playwright/.auth/user.json"]

/-! ## Array-aliasing model for `getCreatedRecords`'s copy semantics -/

/-- A heap of JS arrays of tracked records; an array reference is an index. -/
abbrev RecHeap := List (List TrackedRecord)

/-- Read the array behind a reference. -/
def heapGet (h : RecHeap) (ref : Nat) : List TrackedRecord :=
  List.getD h ref []

/-- Replace the contents of the array behind a reference (any caller-side
mutation of that array results in some such contents). -/
def heapSet (h : RecHeap) (ref : Nat) (v : List TrackedRecord) : RecHeap :=
  List.set h ref v

/-- `getCreatedRecords`'s `return [...this.createdRecords]` at the aliasing
level: allocate a fresh array holding a copy of the manager's contents and
return the fresh reference. -/
def getCreatedRecordsAlloc (h : RecHeap) (mgr : Nat) : RecHeap × Nat :=
  (h ++ [heapGet h mgr], List.length h)

/-! ## Helper lemmas about `cleanup` -/

theorem delTarget_attemptDelete (f : String → String → Except String Unit)
    (r : TrackedRecord) : delTarget (attemptDelete f r) = some r := by
  unfold attemptDelete
  cases f r.type r.id <;> rfl

theorem filterMap_delTarget_map (f : String → String → Except String Unit)
    (l : List TrackedRecord) : (l.map (attemptDelete f)).filterMap delTarget = l := by
  induction l with
  | nil => rfl
  | cons r t ih =>
      simp [List.filterMap_cons, delTarget_attemptDelete, ih]

theorem filterMap_delTarget_comp (f : String → String → Except String Unit)
    (l : List TrackedRecord) : List.filterMap (delTarget ∘ attemptDelete f) l = l := by
  induction l with
  | nil => rfl
  | cons r t ih =>
      simp [List.filterMap_cons, Function.comp, delTarget_attemptDelete, ih]

theorem cleanupAttempts_eq (f : String → String → Except String Unit)
    (s : List TrackedRecord) : cleanupAttempts f s = orderedRecords s := by
  unfold cleanupAttempts cleanupEvents orderedRecords
  by_cases h : s.length = 0
  · simp [h]
  · simp [h, deletionOrder, List.filterMap_append, filterMap_delTarget_map,
      filterMap_delTarget_comp, List.filterMap_cons, delTarget]

theorem orderedRecords_perm (s : List TrackedRecord) : List.Perm (orderedRecords s) s := by
  unfold orderedRecords
  by_cases h : s.length = 0
  · simp [List.length_eq_zero.mp h]
  · simp only [h, if_false, deletionOrder, List.flatMap_cons, List.flatMap_nil,
      List.append_nil, List.append_assoc, List.contains_cons, List.contains_nil]
    have hC : s.filter (fun r => r.type == "Contact")
        = (s.filter (fun r => !(r.type == "Opportunity"))).filter
            (fun r => r.type == "Contact") := by
      rw [List.filter_filter]
      apply List.filter_congr
      intro r _
      cases hc : (r.type == "Contact")
      · simp
      · have ht : r.type = "Contact" := by simpa using hc
        simp [ht]
    have hA : s.filter (fun r => r.type == "Account")
        = ((s.filter (fun r => !(r.type == "Opportunity"))).filter
            (fun r => !(r.type == "Contact"))).filter (fun r => r.type == "Account") := by
      rw [List.filter_filter, List.filter_filter]
      apply List.filter_congr
      intro r _
      cases hc : (r.type == "Account")
      · simp
      · have ht : r.type = "Account" := by simpa using hc
        simp [ht]
    have hO : s.filter (fun r => !(r.type == "Opportunity" || (r.type == "Contact" ||
            (r.type == "Account" || false))))
        = ((s.filter (fun r => !(r.type == "Opportunity"))).filter
            (fun r => !(r.type == "Contact"))).filter (fun r => !(r.type == "Account")) := by
      rw [List.filter_filter, List.filter_filter]
      apply List.filter_congr
      intro r _
      cases h0 : (r.type == "Opportunity") <;> cases h1 : (r.type == "Contact") <;>
        cases h2 : (r.type == "Account") <;> simp [h0, h1, h2]
    rw [hC, hA, hO]
    refine List.Perm.trans (List.Perm.append_left _ ?_)
      (List.filter_append_perm (fun r : TrackedRecord => r.type == "Opportunity") s)
    refine List.Perm.trans (List.Perm.append_left _ ?_)
      (List.filter_append_perm (fun r : TrackedRecord => r.type == "Contact")
        (s.filter (fun r => !(r.type == "Opportunity"))))
    exact List.filter_append_perm (fun r : TrackedRecord => r.type == "Account")
      ((s.filter (fun r => !(r.type == "Opportunity"))).filter
        (fun r => !(r.type == "Contact")))

theorem cleanupEvents_of_ne_nil (f : String → String → Except String Unit)
    (s : List TrackedRecord) (h : s ≠ []) :
    cleanupEvents f s
      = (cleanupAttempts f s).map (attemptDelete f) ++ [CleanupEvent.clearTracking] := by
  have h' : ¬s.length = 0 := fun hl => h (List.eq_nil_of_length_eq_zero hl)
  rw [cleanupAttempts_eq]
  unfold cleanupEvents orderedRecords
  simp [h', deletionOrder, List.map_append]

theorem priorityOf_of_type_opportunity {r : TrackedRecord}
    (h : r.type = "Opportunity") : priorityOf r = 0 := by
  simp [priorityOf, h]

theorem priorityOf_of_type_contact {r : TrackedRecord}
    (h : r.type = "Contact") : priorityOf r = 1 := by
  simp [priorityOf, h]

theorem priorityOf_of_type_account {r : TrackedRecord}
    (h : r.type = "Account") : priorityOf r = 2 := by
  simp [priorityOf, h]

theorem priorityOf_of_unlisted {r : TrackedRecord}
    (h0 : r.type ≠ "Opportunity") (h1 : r.type ≠ "Contact") (h2 : r.type ≠ "Account") :
    priorityOf r = 3 := by
  simp [priorityOf, h0, h1, h2]

theorem pairwise_priority_of_const {l : List TrackedRecord} {c : Nat}
    (h : ∀ r ∈ l, priorityOf r = c) :
    l.Pairwise (fun a b => priorityOf a ≤ priorityOf b) := by
  induction l with
  | nil => exact List.Pairwise.nil
  | cons a t ih =>
      refine List.Pairwise.cons (fun b hb => ?_) (ih fun r hr => h r (List.mem_cons_of_mem _ hr))
      rw [h a (List.mem_cons_self _ _), h b (List.mem_cons_of_mem _ hb)]

/-! ## Claim theorems: cleanup -/

/-- C1: `cleanup()` on a manager with N tracked records attempts exactly N
deletion calls, one per tracked record; which deletions are attempted does
not depend on which deletions fail (a failure never stops the loop); the
tracked collection is cleared, and the clear event comes only after every
deletion attempt; and on an empty collection no deletion call (indeed no
event) occurs. -/
theorem cleanup_attempts_every_tracked_record
    (f g : String → String → Except String Unit) (s : List TrackedRecord) :
    (cleanupAttempts f s).length = s.length ∧
    cleanupAttempts f s = cleanupAttempts g s ∧
    getCreatedRecords (cleanupState f s) = [] ∧
    (s = [] → cleanupEvents f s = []) ∧
    (s ≠ [] → cleanupEvents f s
      = (cleanupAttempts f s).map (attemptDelete f) ++ [CleanupEvent.clearTracking]) := by
  refine ⟨?_, ?_, ?_, ?_, ?_⟩
  · rw [cleanupAttempts_eq]
    exact (orderedRecords_perm s).length_eq
  · rw [cleanupAttempts_eq, cleanupAttempts_eq]
  · unfold getCreatedRecords cleanupState
    by_cases h : s.length = 0
    · simp [h, List.eq_nil_of_length_eq_zero h]
    · simp [h]
  · intro h
    subst h
    rfl
  · exact cleanupEvents_of_ne_nil f s

theorem cleanup_attempts_every_tracked_record_witness :
    cleanupEvents (fun _ _ => Except.ok ()) ([] : List TrackedRecord) = [] ∧
    (cleanupAttempts (fun _ _ => Except.ok ())
        [⟨"Account", "001A", none⟩, ⟨"Custom__c", "a0XA", none⟩]).length = 2 :=
  ⟨(cleanup_attempts_every_tracked_record (fun _ _ => Except.ok ())
      (fun _ _ => Except.ok ()) []).2.2.2.1 rfl,
   (cleanup_attempts_every_tracked_record (fun _ _ => Except.ok ())
      (fun _ _ => Except.ok ())
      [⟨"Account", "001A", none⟩, ⟨"Custom__c", "a0XA", none⟩]).1⟩

/-- C2: the deletion attempts of `cleanup()` are issued in nondecreasing
priority: every record of a type placed earlier in the fixed list
(Opportunity, Contact, Account) is deleted before any record of a later type,
and every record of an unlisted type (priority 3) comes after all listed
ones; moreover the attempts are a permutation of the tracked collection. -/
theorem cleanup_deletes_in_priority_order
    (f : String → String → Except String Unit) (s : List TrackedRecord) :
    (cleanupAttempts f s).Pairwise (fun a b => priorityOf a ≤ priorityOf b) ∧
    List.Perm (cleanupAttempts f s) s := by
  rw [cleanupAttempts_eq]
  refine ⟨?_, orderedRecords_perm s⟩
  unfold orderedRecords
  by_cases h : s.length = 0
  · simp [h]
  · simp only [h, if_false, deletionOrder, List.flatMap_cons, List.flatMap_nil,
      List.append_nil, List.append_assoc]
    have hOpp : ∀ r ∈ s.filter (fun r => r.type == "Opportunity"), priorityOf r = 0 :=
      fun r hr => priorityOf_of_type_opportunity (by simpa using (List.mem_filter.mp hr).2)
    have hCon : ∀ r ∈ s.filter (fun r => r.type == "Contact"), priorityOf r = 1 :=
      fun r hr => priorityOf_of_type_contact (by simpa using (List.mem_filter.mp hr).2)
    have hAcc : ∀ r ∈ s.filter (fun r => r.type == "Account"), priorityOf r = 2 :=
      fun r hr => priorityOf_of_type_account (by simpa using (List.mem_filter.mp hr).2)
    have hOth : ∀ r ∈ s.filter
        (fun r => !(List.contains ["Opportunity", "Contact", "Account"] r.type)),
        priorityOf r = 3 := by
      intro r hr
      have h' := (List.mem_filter.mp hr).2
      simp at h'
      exact priorityOf_of_unlisted h'.1 h'.2.1 h'.2.2
    refine List.pairwise_append.mpr
      ⟨pairwise_priority_of_const hOpp,
       List.pairwise_append.mpr
        ⟨pairwise_priority_of_const hCon,
         List.pairwise_append.mpr
          ⟨pairwise_priority_of_const hAcc, pairwise_priority_of_const hOth, ?_⟩,
         ?_⟩,
       ?_⟩
    · intro a ha b hb
      rw [hAcc a ha, hOth b hb]
      omega
    · intro a ha b hb
      rcases List.mem_append.mp hb with hb | hb
      · rw [hCon a ha, hAcc b hb]
        omega
      · rw [hCon a ha, hOth b hb]
        omega
    · intro a ha b hb
      rw [hOpp a ha]
      exact Nat.zero_le _

theorem cleanup_deletes_in_priority_order_witness :
    List.Perm
      (cleanupAttempts (fun _ _ => Except.ok ())
        [⟨"Account", "001A", none⟩, ⟨"Opportunity", "006A", none⟩])
      [⟨"Account", "001A", none⟩, ⟨"Opportunity", "006A", none⟩] :=
  (cleanup_deletes_in_priority_order (fun _ _ => Except.ok ())
    [⟨"Account", "001A", none⟩, ⟨"Opportunity", "006A", none⟩]).2

/-! ## Claim theorems: creation tracking -/

theorem countId_append (s : List TrackedRecord) (r : TrackedRecord) (i : String) :
    countId (s ++ [r]) i = countId s i + (if r.id == i then 1 else 0) := by
  unfold countId
  rw [List.filter_append]
  cases h : r.id == i <;> simp [h]

theorem countId_eq_zero {s : List TrackedRecord} {i : String}
    (h : i ∉ s.map (fun r => r.id)) : countId s i = 0 := by
  unfold countId
  rw [List.length_eq_zero, List.filter_eq_nil_iff]
  intro r hr
  simp only [beq_iff_eq]
  intro hc
  exact h (List.mem_map.mpr ⟨r, hr, hc⟩)

/-- C3: immediately after any of the four create helpers succeeds, the id the
API returned is tracked exactly once; later appends of records with other ids
(every later successful create) and exclusions of other ids leave that count
at exactly one, so the entry stays tracked once until cleanup, exclusion of
this id, or reset removes it. -/
theorem created_id_tracked_exactly_once
    (s : List TrackedRecord) (api : ApiFun) (name : Option String) (extra data : Payload)
    (accountId objectType : String) (now : Nat) (closeDateString : String)
    (res : CreateResult)
    (hfresh : res.id ∉ s.map (fun r => r.id)) :
    (api "Account" (accountData name now extra) = .ok res →
        countId (createTestAccountE s name extra now api).1 res.id = 1) ∧
    (api "Contact" (contactData accountId data now) = .ok res →
        countId (createTestContactE s accountId data now api).1 res.id = 1) ∧
    (api "Opportunity" (opportunityData accountId data now closeDateString) = .ok res →
        countId (createTestOpportunityE s accountId data now closeDateString api).1 res.id
          = 1) ∧
    (api objectType data = .ok res →
        countId (createTestRecordE s objectType data api).1 res.id = 1) ∧
    (∀ t : List TrackedRecord, ∀ r : TrackedRecord, r.id ≠ res.id →
        countId (t ++ [r]) res.id = countId t res.id) ∧
    (∀ t : List TrackedRecord, ∀ other : String, other ≠ res.id →
        countId (excludeFromCleanup t other) res.id = countId t res.id) := by
  have hzero : countId s res.id = 0 := countId_eq_zero hfresh
  refine ⟨?_, ?_, ?_, ?_, ?_, ?_⟩
  · intro hapi
    simp [createTestAccountE, hapi, countId_append, hzero]
  · intro hapi
    simp [createTestContactE, hapi, countId_append, hzero]
  · intro hapi
    simp [createTestOpportunityE, hapi, countId_append, hzero]
  · intro hapi
    simp [createTestRecordE, hapi, countId_append, hzero]
  · intro t r hne
    simp [countId_append, hne]
  · intro t other hne
    unfold countId excludeFromCleanup
    rw [List.filter_filter]
    apply congrArg
    apply List.filter_congr
    intro r _
    cases hc : (r.id == res.id)
    · simp
    · have : r.id = res.id := by simpa using hc
      simp [this, Ne.symm hne]

theorem created_id_tracked_exactly_once_witness :
    ("001X" : String) ∉ ([] : List TrackedRecord).map (fun r => r.id) ∧
    countId (createTestAccountE [] none [] 5
      (fun _ _ => Except.ok ⟨"001X", true, []⟩)).1 "001X" = 1 :=
  ⟨by simp,
   (created_id_tracked_exactly_once [] (fun _ _ => Except.ok ⟨"001X", true, []⟩)
      none [] [] "001P" "Custom__c" 5 "2026-01-01" ⟨"001X", true, []⟩
      (by simp)).1 rfl⟩

/-- C5: when the underlying `createRecord` call throws, each create helper
rethrows that same error and leaves the tracked collection exactly as it
was — nothing is appended for the failed creation. -/
theorem create_failure_tracks_nothing
    (s : List TrackedRecord) (api : ApiFun) (name : Option String) (extra data : Payload)
    (accountId objectType : String) (now : Nat) (closeDateString : String) (e : String) :
    (api "Account" (accountData name now extra) = .error e →
        createTestAccountE s name extra now api = (s, .error e)) ∧
    (api "Contact" (contactData accountId data now) = .error e →
        createTestContactE s accountId data now api = (s, .error e)) ∧
    (api "Opportunity" (opportunityData accountId data now closeDateString) = .error e →
        createTestOpportunityE s accountId data now closeDateString api = (s, .error e)) ∧
    (api objectType data = .error e →
        createTestRecordE s objectType data api = (s, .error e)) := by
  refine ⟨?_, ?_, ?_, ?_⟩ <;> intro hapi
  · simp [createTestAccountE, hapi]
  · simp [createTestContactE, hapi]
  · simp [createTestOpportunityE, hapi]
  · simp [createTestRecordE, hapi]

theorem create_failure_tracks_nothing_witness :
    createTestAccountE [⟨"Account", "001A", none⟩] none [] 5
        (fun _ _ => Except.error "INVALID_SESSION_ID")
      = ([⟨"Account", "001A", none⟩], Except.error "INVALID_SESSION_ID") :=
  (create_failure_tracks_nothing [⟨"Account", "001A", none⟩]
      (fun _ _ => Except.error "INVALID_SESSION_ID") none [] [] "001P" "Custom__c" 5
      "2026-01-01" "INVALID_SESSION_ID").1 rfl

/-- C8: `excludeFromCleanup(id)` keeps exactly the tracked entries whose id
differs (membership characterization), keeps them in their original order
(sublist of the old collection), and a subsequent `cleanup()` issues no
deletion attempt for the excluded id.  The embedding of
`excludeFromCleanup` is a pure filter of the tracked collection: it makes no
remote call. -/
theorem exclude_from_cleanup_removes_only_matching
    (s : List TrackedRecord) (rid : String) :
    (∀ r : TrackedRecord, r ∈ excludeFromCleanup s rid ↔ (r ∈ s ∧ r.id ≠ rid)) ∧
    List.Sublist (excludeFromCleanup s rid) s ∧
    (∀ f : String → String → Except String Unit, ∀ r : TrackedRecord,
        r ∈ cleanupAttempts f (excludeFromCleanup s rid) → r.id ≠ rid) := by
  refine ⟨?_, ?_, ?_⟩
  · intro r
    simp [excludeFromCleanup, List.mem_filter]
  · exact List.filter_sublist s
  · intro f r hr
    rw [cleanupAttempts_eq] at hr
    have hmem : r ∈ excludeFromCleanup s rid :=
      (orderedRecords_perm (excludeFromCleanup s rid)).subset hr
    exact (by simpa [excludeFromCleanup, List.mem_filter] using hmem :
      r ∈ s ∧ ¬r.id = rid).2

theorem exclude_from_cleanup_removes_only_matching_witness :
    (⟨"Account", "001B", none⟩ : TrackedRecord)
      ∈ excludeFromCleanup
          [⟨"Account", "001A", none⟩, ⟨"Account", "001B", none⟩] "001A" :=
  ((exclude_from_cleanup_removes_only_matching
      [⟨"Account", "001A", none⟩, ⟨"Account", "001B", none⟩] "001A").1
    ⟨"Account", "001B", none⟩).mpr ⟨by simp, by simp⟩

/-- C9: `getCreatedRecords()` allocates a fresh array: the returned reference
is distinct from the manager's own, its contents equal the manager's tracked
collection, and overwriting the returned array's contents in any way leaves
the collection the manager reads afterwards unchanged. -/
theorem get_created_records_returns_copy (h : RecHeap) (mgr : Nat)
    (hm : mgr < h.length) :
    (getCreatedRecordsAlloc h mgr).2 ≠ mgr ∧
    heapGet (getCreatedRecordsAlloc h mgr).1 (getCreatedRecordsAlloc h mgr).2
      = heapGet h mgr ∧
    (∀ v : List TrackedRecord,
        heapGet
          (heapSet (getCreatedRecordsAlloc h mgr).1 (getCreatedRecordsAlloc h mgr).2 v)
          mgr
        = heapGet h mgr) := by
  unfold getCreatedRecordsAlloc heapGet heapSet
  refine ⟨fun hc => absurd hc.symm (Nat.ne_of_lt hm), ?_, ?_⟩
  · simp [List.getD_eq_getElem?_getD, List.getElem?_concat_length]
  · intro v
    rw [List.getD_eq_getElem?_getD, List.getD_eq_getElem?_getD,
      List.getElem?_set_ne (by omega), List.getElem?_append_left hm]

theorem get_created_records_returns_copy_witness :
    heapGet
        (heapSet (getCreatedRecordsAlloc [[⟨"Account", "001A", none⟩]] 0).1
          (getCreatedRecordsAlloc [[⟨"Account", "001A", none⟩]] 0).2 [])
        0
      = [⟨"Account", "001A", none⟩] :=
  (get_created_records_returns_copy [[⟨"Account", "001A", none⟩]] 0 (by decide)).2.2 []

/-! ## Claim theorems: session bridge -/

/-- C7: when the CLI descriptor lacks a usable access token or instance URL,
the session bridge throws its auth-unavailable error and performs no browser
action at all: no front-door navigation, no URL wait, no storage-state
write. -/
theorem auth_setup_fails_fast_without_token (o : OrgInfo)
    (h : truthy o.accessToken = false ∨ truthy o.instanceUrl = false) :
    authSetup o
      = Except.error "Failed to retrieve Access Token. Run \"sf org login web\" first." ∧
    (∀ acts : List AuthAction, authSetup o ≠ Except.ok acts) := by
  have hcond : (!truthy o.accessToken || !truthy o.instanceUrl) = true := by
    rcases h with h | h <;> simp [h]
  have herr : authSetup o
      = Except.error "Failed to retrieve Access Token. Run \"sf org login web\" first." := by
    unfold authSetup
    rw [if_pos hcond]
  exact ⟨herr, fun acts hc => by rw [herr] at hc; exact Except.noConfusion hc⟩

theorem auth_setup_fails_fast_without_token_witness :
    authSetup ⟨none, some "https://example.my.salesforce.com"⟩
      = Except.error "Failed to retrieve Access Token. Run \"sf org login web\" first." :=
  (auth_setup_fails_fast_without_token ⟨none, some "https://example.my.salesforce.com"⟩
    (Or.inl rfl)).1

/-! ## Claim theorems: deleteRecord idempotence -/

/-- C4 counterexample: a non-success response whose status is not 404 but
whose body happens to contain the substring 404 is swallowed by
`deleteRecord`'s catch block and treated as success, contradicting the claim
that every non-success non-404 status makes `deleteRecord` fail. -/
theorem delete_record_swallows_non_404_with_404_in_body :
    respOk ⟨400, "errorCode 404"⟩ = false ∧
    (⟨400, "errorCode 404"⟩ : HttpResponse).status ≠ 404 ∧
    deleteRecordModel "Account" "001000000000000AAA" ⟨400, "errorCode 404"⟩
      = Except.ok () := by
  refine ⟨by decide, by decide, ?_⟩
  rfl

/-- C4 amended: `deleteRecord` treats 404 as success (so re-deleting an
already-deleted id does not raise), treats success statuses as success, and
fails with a delete error carrying the status on any other status — except
when the combined status-and-body error text contains the substring 404, in
which case the catch block misreads it as already-deleted and succeeds. -/
theorem delete_record_idempotent_amended (objectType recordId : String)
    (resp : HttpResponse) :
    (resp.status = 404 → deleteRecordModel objectType recordId resp = Except.ok ()) ∧
    (respOk resp = true → deleteRecordModel objectType recordId resp = Except.ok ()) ∧
    (respOk resp = false → resp.status ≠ 404 →
      strIncludes ("Record deletion failed (" ++ Nat.repr resp.status ++ "): " ++ resp.body)
          "404" = false →
      deleteRecordModel objectType recordId resp
        = Except.error ("Failed to delete " ++ objectType ++ " record: Error: "
            ++ ("Record deletion failed (" ++ Nat.repr resp.status ++ "): "
                ++ resp.body))) := by
  refine ⟨?_, ?_, ?_⟩
  · intro h
    simp [deleteRecordModel, deleteRecordInner, h]
  · intro h
    simp [deleteRecordModel, deleteRecordInner, h]
  · intro h1 h2 h3
    have hbeq : (resp.status == 404) = false := by simp [h2]
    simp [deleteRecordModel, deleteRecordInner, h1, hbeq, h3]

theorem delete_record_idempotent_amended_witness :
    deleteRecordModel "Account" "001000000000000AAA"
        ⟨404, "The requested resource does not exist"⟩ = Except.ok () ∧
    deleteRecordModel "Account" "001000000000000AAA" ⟨500, "Server Error"⟩
      = Except.error ("Failed to delete " ++ "Account" ++ " record: Error: "
          ++ ("Record deletion failed (" ++ Nat.repr 500 ++ "): " ++ "Server Error")) :=
  ⟨(delete_record_idempotent_amended "Account" "001000000000000AAA"
      ⟨404, "The requested resource does not exist"⟩).1 rfl,
   (delete_record_idempotent_amended "Account" "001000000000000AAA"
      ⟨500, "Server Error"⟩).2.2 (by decide) (by decide) (by decide)⟩

/-! ## Claim theorems: generated-name uniqueness -/

/-- C6 counterexample: two no-name `createTestAccount` calls that observe the
same `Date.now()` value (the same millisecond tick) return the very same
generated name, not two distinct ones. -/
theorem same_tick_account_names_collide :
    (createTestAccountE [] none [] 1736899200000
        (fun _ _ => Except.ok ⟨"001A", true, []⟩)).2
      = Except.ok ("001A", "TestAccount_1736899200000") ∧
    (createTestAccountE
        (createTestAccountE [] none [] 1736899200000
          (fun _ _ => Except.ok ⟨"001A", true, []⟩)).1
        none [] 1736899200000 (fun _ _ => Except.ok ⟨"001B", true, []⟩)).2
      = Except.ok ("001B", "TestAccount_1736899200000") := by
  exact ⟨rfl, rfl⟩

/-- C6 amended: the generated name is exactly the tick-stamped
`TestAccount_<Date.now()>`, so any two no-name creations within the same
process tick (equal `Date.now()` observations) produce the same name: the
millisecond clock is the only uniqueness source and same-tick calls
collide. -/
theorem same_tick_account_names_equal
    (now : Nat) (s₁ s₂ : List TrackedRecord) (extra₁ extra₂ : Payload)
    (api₁ api₂ : ApiFun) (r₁ r₂ n₁ n₂ : String)
    (h₁ : (createTestAccountE s₁ none extra₁ now api₁).2 = Except.ok (r₁, n₁))
    (h₂ : (createTestAccountE s₂ none extra₂ now api₂).2 = Except.ok (r₂, n₂)) :
    n₁ = n₂ ∧ n₁ = "TestAccount_" ++ Nat.repr now := by
  have e₁ : n₁ = accountUniqueName none now := by
    cases ha : api₁ "Account" (accountData none now extra₁) with
    | error e => simp [createTestAccountE, ha] at h₁
    | ok res =>
        simp [createTestAccountE, ha] at h₁
        exact h₁.2.symm
  have e₂ : n₂ = accountUniqueName none now := by
    cases ha : api₂ "Account" (accountData none now extra₂) with
    | error e => simp [createTestAccountE, ha] at h₂
    | ok res =>
        simp [createTestAccountE, ha] at h₂
        exact h₂.2.symm
  exact ⟨e₁.trans e₂.symm, e₁⟩

theorem same_tick_account_names_equal_witness :
    ("TestAccount_5" : String) = "TestAccount_5" ∧
    ("TestAccount_5" : String) = "TestAccount_" ++ Nat.repr 5 :=
  same_tick_account_names_equal 5 [] [] [] [] (fun _ _ => Except.ok ⟨"001A", true, []⟩)
    (fun _ _ => Except.ok ⟨"001B", true, []⟩) "001A" "001B" "TestAccount_5" "TestAccount_5"
    rfl rfl

/-! ## Claim theorems: caller-supplied Name overrides the payload default -/

/-- C10: when `additionalData` carries a `Name` field, the payload sent to
`createRecord` carries that caller-supplied value (the spread merges caller
fields last, over the defaults), while the name the helper returns and the
name it stores in the tracked entry are the `name` argument (or the
timestamp-suffixed default); whenever the two strings differ, the
returned/tracked name and the remote record's `Name` differ. -/
theorem getField_cons_self (k : String) (v : FieldValue) (rest : Payload) :
    getField ((k, v) :: rest) k = some v := by
  unfold getField
  rw [List.find?_cons_of_pos _ (by simp)]
  rfl

theorem getField_spreadMerge_head {v : FieldValue} (k : String) (d : FieldValue)
    (base extra : Payload) (h : getField extra k = some v) :
    getField (spreadMerge ((k, d) :: base) extra) k = some v := by
  simp only [spreadMerge, List.map_cons, List.cons_append, h]
  exact getField_cons_self k v _

theorem account_payload_name_overridden
    (s : List TrackedRecord) (name : Option String) (now : Nat) (extra : Payload)
    (api : ApiFun) (res : CreateResult) (n : String)
    (hname : getField extra "Name" = some (.str n))
    (hapi : api "Account" (accountData name now extra) = Except.ok res) :
    getField (accountData name now extra) "Name" = some (.str n) ∧
    (createTestAccountE s name extra now api).2
      = Except.ok (res.id, accountUniqueName name now) ∧
    (createTestAccountE s name extra now api).1
      = s ++ [⟨"Account", res.id, some (accountUniqueName name now)⟩] ∧
    (n ≠ accountUniqueName name now →
      getField (accountData name now extra) "Name"
        ≠ some (.str (accountUniqueName name now))) := by
  have hpay : getField (accountData name now extra) "Name" = some (.str n) := by
    unfold accountData
    exact getField_spreadMerge_head "Name" (.str (accountUniqueName name now)) _ extra hname
  refine ⟨hpay, ?_, ?_, ?_⟩
  · simp [createTestAccountE, hapi]
  · simp [createTestAccountE, hapi]
  · intro hne hc
    rw [hpay] at hc
    exact hne (by simpa using hc)

theorem account_payload_name_overridden_witness :
    getField (accountData none 7 [("Name", FieldValue.str "Override Corp")]) "Name"
      = some (FieldValue.str "Override Corp") :=
  (account_payload_name_overridden [] none 7 [("Name", FieldValue.str "Override Corp")]
    (fun _ _ => Except.ok ⟨"001C", true, []⟩) ⟨"001C", true, []⟩ "Override Corp"
    rfl rfl).1

end SfAiCli
